import Mathlib

/-!
Verification of the DeepCare patient drop-off pipeline.

The pipeline is a linear PySpark notebook: it cleans a demographics table
and a visits table, aggregates an XML event log per patient, joins the
three on `patient_id`, string-indexes and one-hot encodes categorical
columns, undersamples the majority class, and splits 70/30 for training.

Tables are embedded as lists of records; Spark's bulk operations
(`fillna`, `join`, `groupBy`/`agg`, `sample`, `randomSplit`) are embedded
as the corresponding pure list transformations.  Numeric CSV columns are
embedded as `Int`/`ℚ`, nullable columns as `Option`.
-/

/-- A raw row of `patient_demographics.csv` as loaded by Spark.
Columns that the cleaning code imputes (the six categorical columns,
`avg_monthly_income`) and `gender` are nullable. -/
structure DemoRow where
  patient_id : Int
  age : Int
  gender : Option String
  zipcode : Int
  insurance : Option String
  marital_status : Option String
  education_level : Option String
  employment_status : Option String
  chronic_conditions : Int
  has_mobile_app : Option String
  language_preference : Option String
  avg_monthly_income : Option ℚ
deriving DecidableEq, Repr

/-- A demographics row after `preprocess_demographics`: the listed
categorical columns and `gender` are non-null, income is mean-imputed
(still `Option` because the mean of an all-null column is undefined). -/
structure DemoClean where
  patient_id : Int
  age : Int
  gender : String
  zipcode : Int
  insurance : String
  marital_status : String
  education_level : String
  employment_status : String
  chronic_conditions : Int
  has_mobile_app : Option String
  language_preference : String
  avg_monthly_income : Option ℚ
deriving DecidableEq, Repr

/-- `fillna({c: "Unknown"})` on one nullable string cell. -/
def fillCat (o : Option String) : String := o.getD "Unknown"

/-- The gender normalization `when(col.isin("M","Male"),"Male")
.when(col.isin("F","Female"),"Female").otherwise("Other")`. -/
def normalizeGender (g : String) : String :=
  if g = "M" ∨ g = "Male" then "Male"
  else if g = "F" ∨ g = "Female" then "Female"
  else "Other"

/-- `when(col("chronic_conditions") > 5, 5).otherwise(col("chronic_conditions"))`. -/
def capChronic (n : Int) : Int := if n > 5 then 5 else n

/-- `df_demo.select(mean("avg_monthly_income")).first()[0]`:
Spark's `mean` ignores nulls and is null on an all-null column. -/
def incomeMean (rows : List DemoRow) : Option ℚ :=
  let vs := rows.filterMap (fun r => r.avg_monthly_income)
  if vs.isEmpty then none else some (vs.sum / (vs.length : ℚ))

/-- `fillna({"avg_monthly_income": income_mean})` on one cell. -/
def fillIncome (m : Option ℚ) (o : Option ℚ) : Option ℚ :=
  match o with
  | some x => some x
  | none => m

/-- One row of the demographics cleaner: income mean-imputation, "Unknown"
fill of the six listed categorical columns, gender normalization (the
fill runs first, so a null gender becomes "Unknown" and then "Other"),
chronic-condition cap at 5. -/
def preprocessDemoRow (m : Option ℚ) (r : DemoRow) : DemoClean :=
  { patient_id := r.patient_id
    age := r.age
    gender := normalizeGender (fillCat r.gender)
    zipcode := r.zipcode
    insurance := fillCat r.insurance
    marital_status := fillCat r.marital_status
    education_level := fillCat r.education_level
    employment_status := fillCat r.employment_status
    chronic_conditions := capChronic r.chronic_conditions
    has_mobile_app := r.has_mobile_app
    language_preference := fillCat r.language_preference
    avg_monthly_income := fillIncome m r.avg_monthly_income }

/-- `preprocess_demographics`: whole-table demographics cleaning. -/
def preprocess_demographics (rows : List DemoRow) : List DemoClean :=
  rows.map (preprocessDemoRow (incomeMean rows))

/-- A raw row of `patient_visits.csv` as loaded by Spark; every
non-key column is nullable in the CSV. -/
structure VisitRow where
  patient_id : Int
  num_visits : Option Int
  total_spent : Option ℚ
  time_in_waiting : Option ℚ
  visit_type : Option String
  appointment_day : Option String
  department : Option String
  satisfaction_score : Option Int
  doctor_assigned : Option String
  visit_duration : Option ℚ
  prescription_given : Option String
  followup_recommended : Option String
  drop_off : Option Int
deriving DecidableEq, Repr

/-- A visits row after `preprocess_visits`.  Only the six columns named in
the `fillna` dict become non-null; the remaining nullable columns are
untouched by the cleaner and stay `Option`. -/
structure VisitClean where
  patient_id : Int
  num_visits : Option Int
  total_spent : ℚ
  time_in_waiting : Option ℚ
  visit_type : String
  appointment_day : String
  department : String
  satisfaction_score : Option Int
  doctor_assigned : Option String
  visit_duration : ℚ
  prescription_given : Option String
  followup_recommended : Option String
  drop_off : Int
deriving DecidableEq, Repr

/-- One row of the visits cleaner: `fillna({"total_spent": 0,
"visit_duration": 0, "visit_type": "Unknown", "department": "Unknown",
"appointment_day": "Unknown", "drop_off": 0})` followed by
`withColumn("drop_off", col("drop_off").cast("int"))`.  The cast is the
identity on the already-integer label. -/
def preprocessVisitRow (v : VisitRow) : VisitClean :=
  { patient_id := v.patient_id
    num_visits := v.num_visits
    total_spent := v.total_spent.getD 0
    time_in_waiting := v.time_in_waiting
    visit_type := fillCat v.visit_type
    appointment_day := fillCat v.appointment_day
    department := fillCat v.department
    satisfaction_score := v.satisfaction_score
    doctor_assigned := v.doctor_assigned
    visit_duration := v.visit_duration.getD 0
    prescription_given := v.prescription_given
    followup_recommended := v.followup_recommended
    drop_off := v.drop_off.getD 0 }

/-- `preprocess_visits`: whole-table visits cleaning. -/
def preprocess_visits (rows : List VisitRow) : List VisitClean :=
  rows.map preprocessVisitRow

/-- A row of `hospital_logs.xml` after the `patient_id` cast and
`to_timestamp` parse; a timestamp that fails to parse is null, so the
column is `Option` (modelled as minutes since an epoch). -/
structure LogRow where
  department : String
  event : String
  log_type : String
  patient_id : Int
  staff_on_duty : String
  timestamp : Option Nat
deriving DecidableEq, Repr

/-- The events of one patient: the rows a `groupBy("patient_id")` bucket
holds, and equally the rows the self-join on `patient_id` matches. -/
def logsFor (logs : List LogRow) (p : Int) : List LogRow :=
  logs.filter (fun e => e.patient_id = p)

/-- The distinct patient ids of the log table: the keys of
`groupBy("patient_id")`. -/
def logPids (logs : List LogRow) : List Int :=
  (logs.map (fun e => e.patient_id)).dedup

/-- `agg(max("timestamp"))` for one patient: Spark's `max` ignores nulls
and is null when every timestamp of the group is null. -/
def latestLogTime (evs : List LogRow) : Option Nat :=
  (evs.filterMap (fun e => e.timestamp)).max?

/-- SQL equality on nullable values, as in
`filter(col("timestamp") == col("latest_log_time"))`: null on either
side never compares equal. -/
def sqlEqTime (a b : Option Nat) : Bool :=
  match a, b with
  | some x, some y => x == y
  | _, _ => false

/-- The `latest_department` value for one patient: the log rows are
joined with their group's max timestamp, filtered to the rows achieving
it, and `dropDuplicates(["patient_id"])` keeps one of them (modelled as
the first; the source leaves the tie-break arbitrary).  Null when the
patient has no non-null timestamp. -/
def latestDepartment (logs : List LogRow) (p : Int) : Option String :=
  let evs := logsFor logs p
  ((evs.filter (fun e => sqlEqTime e.timestamp (latestLogTime evs))).head?).map
    (fun e => e.department)

/-- One row of the aggregated per-patient log features:
`count("*")`, `count(when(col("log_type") == "critical", True))`,
`countDistinct("event")`, plus the most-recent-department lookup. -/
structure LogFeat where
  patient_id : Int
  log_count : Nat
  critical_logs : Nat
  unique_events : Nat
  most_recent_department : Option String
deriving DecidableEq, Repr

/-- The aggregation row of one patient. -/
def aggLogRow (logs : List LogRow) (p : Int) : LogFeat :=
  let evs := logsFor logs p
  { patient_id := p
    log_count := evs.length
    critical_logs := (evs.filter (fun e => e.log_type = "critical")).length
    unique_events := ((evs.map (fun e => e.event)).dedup).length
    most_recent_department := latestDepartment logs p }

/-- `df_log_features`: the per-patient aggregation left-joined with the
latest-department lookup, with the table-level
`fillna({..., "most_recent_department": "Unknown"})` applied (the
numeric aggregates are never null, so their fill is the identity). -/
def df_log_features (logs : List LogRow) : List LogFeat :=
  (logPids logs).map (fun p =>
    let f := aggLogRow logs p
    { f with most_recent_department := some (f.most_recent_department.getD "Unknown") })

/-- A row of `df_patient = df_demo.join(df_visits, on="patient_id",
how="inner")`: a cleaned demographics row paired with a cleaned visits
row agreeing on `patient_id` (the join emits the key once; here it is
read from the demographics side). -/
structure PatientRow where
  demo : DemoClean
  visit : VisitClean
deriving DecidableEq, Repr

/-- The inner join of demographics with visits on `patient_id`. -/
def df_patient (demo : List DemoClean) (visits : List VisitClean) : List PatientRow :=
  demo.flatMap (fun d =>
    (visits.filter (fun v => v.patient_id = d.patient_id)).map (fun v =>
      { demo := d, visit := v }))

/-- A row of the integrated table `df_final`, after the final `fillna`:
the log-derived columns are non-null. -/
structure FinalRow where
  demo : DemoClean
  visit : VisitClean
  log_count : Nat
  critical_logs : Nat
  unique_events : Nat
  most_recent_department : String
deriving DecidableEq, Repr

/-- The integrated `patient_id` of a final row. -/
def FinalRow.patient_id (r : FinalRow) : Int := r.demo.patient_id

/-- The left join of one `df_patient` row with `df_log_features` fused
with the trailing `fillna({"log_count": 0, "critical_logs": 0,
"unique_events": 0, "most_recent_department": "Unknown"})`: an unmatched
row gets the null sentinels, a matched row copies each feature (the
`fillna` is the identity on the already non-null features). -/
def joinLogs (feats : List LogFeat) (pr : PatientRow) : List FinalRow :=
  if (feats.filter (fun f => f.patient_id = pr.demo.patient_id)).isEmpty then
    [{ demo := pr.demo, visit := pr.visit, log_count := 0, critical_logs := 0,
       unique_events := 0, most_recent_department := "Unknown" }]
  else
    (feats.filter (fun f => f.patient_id = pr.demo.patient_id)).map (fun f =>
      { demo := pr.demo, visit := pr.visit, log_count := f.log_count,
        critical_logs := f.critical_logs, unique_events := f.unique_events,
        most_recent_department := f.most_recent_department.getD "Unknown" })

/-- `df_final`: demographics ⋈ visits (inner), left-joined with the
aggregated log features, null-filled. -/
def df_final (demo : List DemoClean) (visits : List VisitClean) (logs : List LogRow) :
    List FinalRow :=
  (df_patient demo visits).flatMap (joinLogs (df_log_features logs))

/-! ### Categorical feature encoding

`StringIndexer(inputCol=c, outputCol=c_index, handleInvalid="keep")`
fit on the working table, followed by `OneHotEncoder(inputCol=c_index,
outputCol=c_encoded)` with its default `dropLast=True`.

The indexer's labels are the distinct values of the fitted column
(Spark orders them by descending frequency; no property below depends
on the order, so first-occurrence order is used).  With
`handleInvalid="keep"` an unseen value maps to the extra index
`numLabels`, and the output column's metadata advertises
`numLabels + 1` categories (the labels plus the reserved unseen
bucket).  The encoder takes that category count and, dropping the last
category, emits vectors of dimension `numLabels`; the unseen bucket —
the dropped last category — encodes to the all-zeros vector. -/

/-- The fitted labels of `StringIndexer`: the distinct values seen at
fit time. -/
def seenLabels (vals : List String) : List String := vals.dedup

/-- `StringIndexerModel.transform` with `handleInvalid="keep"`: a seen
value maps to its label index, an unseen one to the reserved index
`numLabels`. -/
def stringIndex (vals : List String) (v : String) : Nat :=
  if v ∈ seenLabels vals then (seenLabels vals).indexOf v else (seenLabels vals).length

/-- The category count the encoder fits: the seen labels plus the
reserved unseen bucket recorded in the indexed column's metadata. -/
def categorySize (vals : List String) : Nat := (seenLabels vals).length + 1

/-- The encoded vector dimension: `OneHotEncoder` drops the last
category (`dropLast=True` by default). -/
def oneHotDim (vals : List String) : Nat := categorySize vals - 1

/-- The one-hot expansion of index `i` into a vector of dimension
`size`: a 1 in slot `i` when `i < size`, the all-zeros vector
otherwise (the dropped last category). -/
def oneHot : Nat → Nat → List ℚ
  | 0, _ => []
  | n + 1, 0 => 1 :: List.replicate n 0
  | n + 1, i + 1 => 0 :: oneHot n i

/-- Index a value and expand the index to its one-hot vector. -/
def encodeValue (vals : List String) (v : String) : List ℚ :=
  oneHot (oneHotDim vals) (stringIndex vals v)

/-- The number of nonzero entries of an encoded vector. -/
def countNonzero (xs : List ℚ) : Nat := (xs.filter (fun x => x ≠ 0)).length

/-- Decode a one-hot vector to the position of its nonzero entry. -/
def decodeOneHot : List ℚ → Nat
  | [] => 0
  | x :: xs => if x = 0 then decodeOneHot xs + 1 else 0

/-! ### Balancing and train/test split -/

/-- A row of `df_clustered` as the balancer sees it: the outcome label,
the assembled feature vector, and the cluster segment. -/
structure BRow where
  drop_off : Int
  features : List ℚ
  patient_segment : Nat
deriving DecidableEq, Repr

/-- `df_major = df_clustered.filter(col("drop_off") == 0)`. -/
def df_major (rows : List BRow) : List BRow :=
  rows.filter (fun r => r.drop_off = 0)

/-- `df_minor = df_clustered.filter(col("drop_off") == 1)`. -/
def df_minor (rows : List BRow) : List BRow :=
  rows.filter (fun r => r.drop_off = 1)

/-- `df.sample(withReplacement=False, fraction, seed)`: Bernoulli
row-level sampling.  The pseudo-random keep/drop decisions are
abstracted into a boolean mask consumed positionally; sampling without
replacement means each input row is emitted at most once. -/
def sampleRows : List Bool → List BRow → List BRow
  | _, [] => []
  | [], _ :: _ => []
  | b :: bs, r :: rs => if b then r :: sampleRows bs rs else sampleRows bs rs

/-- `df_balanced = df_major_sampled.union(df_minor)` before the
`orderBy(rand())` shuffle (the shuffle is an arbitrary permutation and
is quantified over in the theorems). -/
def df_balanced (mask : List Bool) (rows : List BRow) : List BRow :=
  sampleRows mask (df_major rows) ++ df_minor rows

/-- `randomSplit([0.7, 0.3], seed=42)`: every row is assigned one
uniform draw and lands in the train split when the draw falls in the
first weight range, in the test split otherwise.  The seeded draws are
abstracted as a function of the row position. -/
def randomSplitGo (keep : Nat → Bool) : Nat → List BRow → List BRow × List BRow
  | _, [] => ([], [])
  | i, r :: rs =>
    let p := randomSplitGo keep (i + 1) rs
    if keep i then (r :: p.1, p.2) else (p.1, r :: p.2)

/-- The 70/30 split: row `i` trains iff its draw `u i` is below 0.7. -/
def randomSplit (u : Nat → ℚ) (rows : List BRow) : List BRow × List BRow :=
  randomSplitGo (fun i => u i < 7 / 10) 0 rows

/-! ### Concrete rows for the end-to-end scenario and witnesses -/

/-- The demographics row of the spec's end-to-end scenario: id 1,
age 51, gender "M", 7 chronic conditions; the unpinned fields hold
arbitrary concrete values. -/
def demoRow1 : DemoRow :=
  { patient_id := 1, age := 51, gender := some "M", zipcode := 49372,
    insurance := some "Medicare", marital_status := some "Single",
    education_level := some "Bachelor", employment_status := some "Student",
    chronic_conditions := 7, has_mobile_app := some "Yes",
    language_preference := some "Hindi", avg_monthly_income := some 20000 }

/-- The visits row of the scenario: patient 1 with a null drop-off. -/
def visitRow1 : VisitRow :=
  { patient_id := 1, num_visits := some 1, total_spent := some 640,
    time_in_waiting := some 23, visit_type := some "New",
    appointment_day := some "Saturday", department := some "Cardiology",
    satisfaction_score := some 10, doctor_assigned := some "D064",
    visit_duration := some 17, prescription_given := some "Yes",
    followup_recommended := some "No", drop_off := none }

/-- First log event of the scenario: patient 1, marked critical. -/
def logRow1 : LogRow :=
  { department := "Cardiology", event := "Checked-In", log_type := "critical",
    patient_id := 1, staff_on_duty := "S030", timestamp := some 100 }

/-- Second log event of the scenario: patient 1, not critical. -/
def logRow2 : LogRow :=
  { department := "ENT", event := "Procedure", log_type := "info",
    patient_id := 1, staff_on_duty := "S044", timestamp := some 200 }

/-- A second visits row for patient 1 (used to exhibit the duplicate
patient id in the visits table). -/
def visitRow1b : VisitRow :=
  { visitRow1 with num_visits := some 4, total_spent := some 100, drop_off := some 1 }

/-- A visits row whose nullable columns outside the `fillna` dict are
all null. -/
def visitRowNull : VisitRow :=
  { patient_id := 2, num_visits := none, total_spent := none,
    time_in_waiting := none, visit_type := none, appointment_day := none,
    department := none, satisfaction_score := none, doctor_assigned := none,
    visit_duration := none, prescription_given := none,
    followup_recommended := none, drop_off := none }

/-- A log event belonging to a different patient (id 2). -/
def logRowOther : LogRow :=
  { department := "Ortho", event := "Procedure", log_type := "info",
    patient_id := 2, staff_on_duty := "S088", timestamp := some 50 }

/-- The integrated row the scenario of claim C3's witness produces: the
join of the cleaned scenario demographics and visits rows, with the
log-derived sentinels. -/
def finalRowNoLogs : FinalRow :=
  { demo := preprocessDemoRow (incomeMean [demoRow1]) demoRow1
    visit := preprocessVisitRow visitRow1
    log_count := 0, critical_logs := 0, unique_events := 0,
    most_recent_department := "Unknown" }

/-- The values of the fitted gender column after cleaning: its three
categories. -/
def genderVals : List String := ["Male", "Female", "Other"]

/-- A majority-class (`drop_off = 0`) row for the balancer witnesses. -/
def bRowMaj : BRow := { drop_off := 0, features := [1], patient_segment := 0 }

/-- A minority-class (`drop_off = 1`) row for the balancer witnesses. -/
def bRowMin : BRow := { drop_off := 1, features := [2], patient_segment := 1 }

/-!
## Theorems

General list lemmas first, then one theorem per claim (with its witness
or counterexample).
-/

/-- A list whose key image is duplicate-free has exactly one element
with a given key that occurs. -/
theorem length_filter_key_eq_one {α : Type} (key : α → Int) (l : List α) (p : Int)
    (hnd : (l.map key).Nodup) (hp : p ∈ l.map key) :
    (l.filter (fun x => key x = p)).length = 1 := by
  induction l with
  | nil => simp at hp
  | cons a tl ih =>
    simp only [List.map_cons, List.nodup_cons, List.mem_cons] at hnd hp
    by_cases hka : key a = p
    · have htl : tl.filter (fun x => key x = p) = [] := by
        refine List.filter_eq_nil_iff.mpr (fun x hx => ?_)
        simp only [decide_eq_true_eq]
        intro hkx
        exact hnd.1 (hka ▸ hkx ▸ List.mem_map_of_mem key hx)
      simp [List.filter_cons, hka, htl]
    · have hp' : p ∈ tl.map key := by
        rcases hp with h | h
        · exact absurd h.symm hka
        · exact h
      simp [List.filter_cons, hka, ih hnd.2 hp']

/-- A list whose key image is duplicate-free has at most one element
with any given key. -/
theorem length_filter_key_le_one {α : Type} (key : α → Int) (l : List α) (p : Int)
    (hnd : (l.map key).Nodup) :
    (l.filter (fun x => key x = p)).length ≤ 1 := by
  induction l with
  | nil => simp
  | cons a tl ih =>
    simp only [List.map_cons, List.nodup_cons] at hnd
    by_cases hka : key a = p
    · have htl : tl.filter (fun x => key x = p) = [] := by
        refine List.filter_eq_nil_iff.mpr (fun x hx => ?_)
        simp only [decide_eq_true_eq]
        intro hkx
        exact hnd.1 (hka ▸ hkx ▸ List.mem_map_of_mem key hx)
      simp [List.filter_cons, hka, htl]
    · simpa [List.filter_cons, hka] using ih hnd.2

/-- Filtering a flattened list sums the per-bucket filtered lengths. -/
theorem length_filter_flatMap {α β : Type} (l : List α) (f : α → List β) (q : β → Bool) :
    ((l.flatMap f).filter q).length = (l.map (fun a => ((f a).filter q).length)).sum := by
  induction l with
  | nil => simp
  | cons a tl ih => simp [List.filter_append, ih]

/-- Summing a constant over the rows satisfying a predicate multiplies
the constant by the count of those rows. -/
theorem sum_map_ite_const {α : Type} (l : List α) (q : α → Prop) [DecidablePred q] (c : Nat) :
    (l.map (fun a => if q a then c else 0)).sum =
    (l.filter (fun a => decide (q a))).length * c := by
  induction l with
  | nil => simp
  | cons a tl ih =>
    by_cases hq : q a
    · simp only [List.map_cons, List.sum_cons, if_pos hq, List.filter_cons,
        decide_eq_true hq, if_true, List.length_cons, ih]
      ring
    · simp only [List.map_cons, List.sum_cons, if_neg hq, List.filter_cons,
        decide_eq_false hq, Bool.false_eq_true, if_false, ih]
      omega

/-- Summing an indicator over a list counts the rows satisfying it. -/
theorem sum_map_ite_eq_length_filter {α : Type} (l : List α) (q : α → Prop) [DecidablePred q] :
    (l.map (fun a => if q a then 1 else 0)).sum =
    (l.filter (fun a => decide (q a))).length := by
  have h := sum_map_ite_const l q 1
  omega

/-- The aggregated log-feature table carries exactly the distinct
patient ids of the log table, in order. -/
theorem df_log_features_map_pid (logs : List LogRow) :
    (df_log_features logs).map (fun f => f.patient_id) = logPids logs := by
  unfold df_log_features
  rw [List.map_map]
  have h : ((fun f : LogFeat => f.patient_id) ∘ fun p =>
      let f := aggLogRow logs p
      { f with most_recent_department := some (f.most_recent_department.getD "Unknown") }) =
      fun p : Int => p := by
    funext p; rfl
  rw [h, List.map_id']

/-- The aggregated log-feature table has one row per patient id. -/
theorem df_log_features_nodup (logs : List LogRow) :
    ((df_log_features logs).map (fun f => f.patient_id)).Nodup := by
  rw [df_log_features_map_pid]
  exact List.nodup_dedup _

/-- Every row of the left join with the log features copies the
demographics and visits halves of its left row. -/
theorem mem_joinLogs (feats : List LogFeat) (pr : PatientRow) (r : FinalRow)
    (hr : r ∈ joinLogs feats pr) : r.demo = pr.demo ∧ r.visit = pr.visit := by
  unfold joinLogs at hr
  by_cases h : (feats.filter (fun f => f.patient_id = pr.demo.patient_id)).isEmpty
  · rw [if_pos h, List.mem_singleton] at hr
    subst hr; exact ⟨rfl, rfl⟩
  · rw [if_neg h, List.mem_map] at hr
    obtain ⟨f, _, hf⟩ := hr
    subst hf; exact ⟨rfl, rfl⟩

/-- The left join with the per-patient log features emits exactly one
row per left row: the feature table has at most one row per patient. -/
theorem joinLogs_length (logs : List LogRow) (pr : PatientRow) :
    (joinLogs (df_log_features logs) pr).length = 1 := by
  have hle : ((df_log_features logs).filter
      (fun f => f.patient_id = pr.demo.patient_id)).length ≤ 1 :=
    length_filter_key_le_one (fun f => f.patient_id) (df_log_features logs)
      pr.demo.patient_id (df_log_features_nodup logs)
  unfold joinLogs
  by_cases h : ((df_log_features logs).filter
      (fun f => f.patient_id = pr.demo.patient_id)).isEmpty
  · rw [if_pos h]; rfl
  · rw [if_neg h, List.length_map]
    rw [Bool.not_eq_true, List.isEmpty_eq_false_iff_exists_mem] at h
    obtain ⟨x, hx⟩ := h
    have hpos := List.length_pos_of_mem hx
    omega

/-- The filtered length of the integrated table at one patient id
equals that of the demographics-visits join. -/
theorem df_final_filter_length (demo : List DemoClean) (visits : List VisitClean)
    (logs : List LogRow) (p : Int) :
    ((df_final demo visits logs).filter (fun r => r.patient_id = p)).length =
    ((df_patient demo visits).filter (fun pr => pr.demo.patient_id = p)).length := by
  unfold df_final
  rw [length_filter_flatMap]
  have h : ∀ pr : PatientRow,
      ((joinLogs (df_log_features logs) pr).filter (fun r => r.patient_id = p)).length =
      if pr.demo.patient_id = p then 1 else 0 := by
    intro pr
    by_cases hp : pr.demo.patient_id = p
    · rw [if_pos hp]
      have hall : (joinLogs (df_log_features logs) pr).filter
          (fun r => r.patient_id = p) = joinLogs (df_log_features logs) pr := by
        refine List.filter_eq_self.mpr (fun r hr => ?_)
        have := (mem_joinLogs _ _ _ hr).1
        simp only [decide_eq_true_eq, FinalRow.patient_id]
        rw [this, hp]
      rw [hall, joinLogs_length]
    · rw [if_neg hp]
      have hnone : (joinLogs (df_log_features logs) pr).filter
          (fun r => r.patient_id = p) = [] := by
        refine List.filter_eq_nil_iff.mpr (fun r hr => ?_)
        have := (mem_joinLogs _ _ _ hr).1
        simp only [decide_eq_true_eq, FinalRow.patient_id]
        rw [this]; exact hp
      rw [hnone]; rfl
  calc ((df_patient demo visits).map (fun pr =>
          ((joinLogs (df_log_features logs) pr).filter (fun r => r.patient_id = p)).length)).sum
      = ((df_patient demo visits).map (fun pr =>
          if pr.demo.patient_id = p then 1 else 0)).sum := by
        congr 1; exact List.map_congr_left (fun pr _ => h pr)
    _ = ((df_patient demo visits).filter (fun pr => pr.demo.patient_id = p)).length := by
        exact sum_map_ite_eq_length_filter _ _

/-- The demographics-visits inner join holds, per patient id, the
product of the two sides' row counts for that id. -/
theorem df_patient_filter_length (demo : List DemoClean) (visits : List VisitClean) (p : Int) :
    ((df_patient demo visits).filter (fun pr => pr.demo.patient_id = p)).length =
    (demo.filter (fun d => d.patient_id = p)).length *
      (visits.filter (fun v => v.patient_id = p)).length := by
  unfold df_patient
  rw [length_filter_flatMap]
  have hbucket : ∀ d : DemoClean,
      (((visits.filter (fun v => v.patient_id = d.patient_id)).map
        (fun v => ({ demo := d, visit := v } : PatientRow))).filter
        (fun pr => pr.demo.patient_id = p)).length =
      if d.patient_id = p then (visits.filter (fun v => v.patient_id = p)).length else 0 := by
    intro d
    rw [List.filter_map, List.length_map]
    by_cases hd : d.patient_id = p
    · rw [if_pos hd]
      have hcomp : ((fun pr : PatientRow => decide (pr.demo.patient_id = p)) ∘
          fun v => ({ demo := d, visit := v } : PatientRow)) = fun _ => true := by
        funext v
        simp [Function.comp, hd]
      rw [hcomp, List.filter_true, hd]
    · rw [if_neg hd]
      have hcomp : ((fun pr : PatientRow => decide (pr.demo.patient_id = p)) ∘
          fun v => ({ demo := d, visit := v } : PatientRow)) = fun _ => false := by
        funext v
        simp [Function.comp, hd]
      rw [hcomp]
      simp
  rw [List.map_congr_left (fun d _ => hbucket d)]
  exact sum_map_ite_const demo (fun d => d.patient_id = p)
    ((visits.filter (fun v => v.patient_id = p)).length)

/-- Cleaning the demographics table preserves its patient-id column. -/
theorem preprocess_demographics_map_pid (rows : List DemoRow) :
    (preprocess_demographics rows).map (fun d => d.patient_id) =
    rows.map (fun r => r.patient_id) := by
  unfold preprocess_demographics
  rw [List.map_map]; rfl

/-- Cleaning the visits table preserves its patient-id column. -/
theorem preprocess_visits_map_pid (rows : List VisitRow) :
    (preprocess_visits rows).map (fun v => v.patient_id) =
    rows.map (fun r => r.patient_id) := by
  unfold preprocess_visits
  rw [List.map_map]; rfl

/-- Claim C1: cleaning the scenario demographics row (id 1, age 51,
gender "M", 7 chronic conditions) and visits row (patient 1, null
drop-off), aggregating the two log events of patient 1 (one critical),
and joining the three produces exactly the integrated row for patient 1
with gender "Male", chronic_conditions 5, drop_off 0, log_count 2 and
critical_logs 1. -/
theorem end_to_end_scenario_row :
    (df_final (preprocess_demographics [demoRow1]) (preprocess_visits [visitRow1])
      [logRow1, logRow2]).map (fun r =>
        (r.patient_id, r.demo.gender, r.demo.chronic_conditions, r.visit.drop_off,
         r.log_count, r.critical_logs)) =
    [(1, "Male", 5, 0, 2, 1)] := by decide

/-- Claim C2, counterexample: with a single demographics row for
patient 1 (so demographic ids are unique) and two visits rows for
patient 1, patient 1 is present on both sides yet the integrated table
holds two rows for it, not exactly one: the inner join multiplies
duplicate visit ids. -/
theorem integrated_row_not_unique :
    (([demoRow1].map (fun d => d.patient_id)).Nodup ∧
      (1 : Int) ∈ [demoRow1].map (fun d => d.patient_id) ∧
      (1 : Int) ∈ [visitRow1, visitRow1b].map (fun v => v.patient_id)) ∧
    ((df_final (preprocess_demographics [demoRow1])
        (preprocess_visits [visitRow1, visitRow1b]) []).filter
      (fun r => r.patient_id = (1 : Int))).length = 2 := by decide

/-- Claim C2, amended: when `patient_id` is unique within demographics
and within visits, every patient id present in both tables has exactly
one row in the integrated table. -/
theorem integrated_row_unique (demo : List DemoRow) (visits : List VisitRow)
    (logs : List LogRow) (p : Int)
    (hd : (demo.map (fun d => d.patient_id)).Nodup)
    (hv : (visits.map (fun v => v.patient_id)).Nodup)
    (hpd : p ∈ demo.map (fun d => d.patient_id))
    (hpv : p ∈ visits.map (fun v => v.patient_id)) :
    ((df_final (preprocess_demographics demo) (preprocess_visits visits) logs).filter
      (fun r => r.patient_id = p)).length = 1 := by
  rw [df_final_filter_length, df_patient_filter_length]
  have h1 : ((preprocess_demographics demo).filter
      (fun d => d.patient_id = p)).length = 1 := by
    refine length_filter_key_eq_one (fun d : DemoClean => d.patient_id) _ p ?_ ?_
    · rw [preprocess_demographics_map_pid]; exact hd
    · rw [preprocess_demographics_map_pid]; exact hpd
  have h2 : ((preprocess_visits visits).filter
      (fun v => v.patient_id = p)).length = 1 := by
    refine length_filter_key_eq_one (fun v : VisitClean => v.patient_id) _ p ?_ ?_
    · rw [preprocess_visits_map_pid]; exact hv
    · rw [preprocess_visits_map_pid]; exact hpv
  rw [h1, h2]

/-- Witness for the amended claim C2 at the concrete scenario tables. -/
theorem integrated_row_unique_witness :
    ((df_final (preprocess_demographics [demoRow1]) (preprocess_visits [visitRow1])
      [logRow1, logRow2]).filter (fun r => r.patient_id = (1 : Int))).length = 1 :=
  integrated_row_unique [demoRow1] [visitRow1] [logRow1, logRow2] 1
    (by decide) (by decide) (by decide) (by decide)

/-- Claim C3: an integrated row whose patient has no event in the log
table carries the null-fill sentinels: zero counts and the "Unknown"
department. -/
theorem no_logs_sentinels (demo : List DemoClean) (visits : List VisitClean)
    (logs : List LogRow) (r : FinalRow)
    (hr : r ∈ df_final demo visits logs)
    (hno : ∀ e ∈ logs, e.patient_id ≠ r.patient_id) :
    r.log_count = 0 ∧ r.critical_logs = 0 ∧ r.unique_events = 0 ∧
    r.most_recent_department = "Unknown" := by
  unfold df_final at hr
  rw [List.mem_flatMap] at hr
  obtain ⟨pr, hpr, hrj⟩ := hr
  have hdemo := (mem_joinLogs _ _ _ hrj).1
  have hpid : r.patient_id = pr.demo.patient_id := by
    rw [FinalRow.patient_id, hdemo]
  have hnil : (df_log_features logs).filter
      (fun f => f.patient_id = pr.demo.patient_id) = [] := by
    refine List.filter_eq_nil_iff.mpr (fun f hf => ?_)
    simp only [decide_eq_true_eq]
    intro hfp
    have hfpid : f.patient_id ∈ (df_log_features logs).map (fun g => g.patient_id) :=
      List.mem_map_of_mem _ hf
    rw [df_log_features_map_pid, logPids, List.mem_dedup, List.mem_map] at hfpid
    obtain ⟨e, he, hep⟩ := hfpid
    exact hno e he (by rw [hep, hfp, ← hpid])
  unfold joinLogs at hrj
  rw [hnil] at hrj
  simp only [List.isEmpty_nil, if_true, List.mem_singleton] at hrj
  subst hrj
  exact ⟨rfl, rfl, rfl, rfl⟩

/-- Witness for claim C3: patient 1's integrated row with a log table
holding only patient 2's events carries the sentinels. -/
theorem no_logs_sentinels_witness :
    finalRowNoLogs.log_count = 0 ∧ finalRowNoLogs.critical_logs = 0 ∧
    finalRowNoLogs.unique_events = 0 ∧
    finalRowNoLogs.most_recent_department = "Unknown" :=
  no_logs_sentinels (preprocess_demographics [demoRow1]) (preprocess_visits [visitRow1])
    [logRowOther] finalRowNoLogs (by decide) (by decide)

/-- Claim C6: on a visits table whose raw drop-off labels are binary or
missing (the data model's binary, zero-imputed outcome), every cleaned
row's drop_off is the integer 0 or 1: the cleaner fills a missing label
with 0 and casts, and leaves present labels unchanged. -/
theorem drop_off_binary (visits : List VisitRow)
    (h : ∀ v ∈ visits, v.drop_off = none ∨ v.drop_off = some 0 ∨ v.drop_off = some 1) :
    ∀ w ∈ preprocess_visits visits, w.drop_off = 0 ∨ w.drop_off = 1 := by
  intro w hw
  unfold preprocess_visits at hw
  rw [List.mem_map] at hw
  obtain ⟨v, hv, hvw⟩ := hw
  subst hvw
  rcases h v hv with h0 | h0 | h0 <;>
    simp [preprocessVisitRow, h0]

/-- Witness for claim C6 at the scenario visits table (null label). -/
theorem drop_off_binary_witness :
    (preprocessVisitRow visitRow1).drop_off = 0 ∨
    (preprocessVisitRow visitRow1).drop_off = 1 :=
  drop_off_binary [visitRow1] (by decide) (preprocessVisitRow visitRow1) (by decide)

/-- Claim C7, counterexample: a visits row with every nullable column
null.  After the cleaner, the numeric columns `num_visits`,
`time_in_waiting` and `satisfaction_score` are still null rather than
0, and the categorical columns `doctor_assigned`, `prescription_given`
and `followup_recommended` are still null rather than "Unknown": the
`fillna` dict names only six columns, not every column. -/
theorem visits_imputation_incomplete :
    (preprocessVisitRow visitRowNull).num_visits = none ∧
    (preprocessVisitRow visitRowNull).num_visits ≠ some 0 ∧
    (preprocessVisitRow visitRowNull).time_in_waiting = none ∧
    (preprocessVisitRow visitRowNull).satisfaction_score = none ∧
    (preprocessVisitRow visitRowNull).doctor_assigned = none ∧
    (preprocessVisitRow visitRowNull).doctor_assigned ≠ some "Unknown" ∧
    (preprocessVisitRow visitRowNull).prescription_given = none ∧
    (preprocessVisitRow visitRowNull).followup_recommended = none ∧
    preprocessVisitRow visitRowNull ∈ preprocess_visits [visitRowNull] := by
  decide

/-- Claim C7, amended: the visits cleaner imputes exactly the six
columns of its `fillna` dict — missing `total_spent`, `visit_duration`
and `drop_off` become 0, missing `visit_type`, `appointment_day` and
`department` become "Unknown" — and passes every other nullable column
through unchanged. -/
theorem visits_imputation_listed (visits : List VisitRow) (v : VisitRow)
    (hv : v ∈ visits) :
    ∃ w ∈ preprocess_visits visits,
      (v.total_spent = none → w.total_spent = 0) ∧
      (∀ x, v.total_spent = some x → w.total_spent = x) ∧
      (v.visit_duration = none → w.visit_duration = 0) ∧
      (∀ x, v.visit_duration = some x → w.visit_duration = x) ∧
      (v.drop_off = none → w.drop_off = 0) ∧
      (∀ x, v.drop_off = some x → w.drop_off = x) ∧
      (v.visit_type = none → w.visit_type = "Unknown") ∧
      (v.appointment_day = none → w.appointment_day = "Unknown") ∧
      (v.department = none → w.department = "Unknown") ∧
      w.num_visits = v.num_visits ∧
      w.time_in_waiting = v.time_in_waiting ∧
      w.satisfaction_score = v.satisfaction_score ∧
      w.doctor_assigned = v.doctor_assigned ∧
      w.prescription_given = v.prescription_given ∧
      w.followup_recommended = v.followup_recommended := by
  refine ⟨preprocessVisitRow v, ?_, ?_⟩
  · unfold preprocess_visits
    exact List.mem_map_of_mem _ hv
  · refine ⟨fun h0 => by simp [preprocessVisitRow, h0],
      fun x h0 => by simp [preprocessVisitRow, h0],
      fun h0 => by simp [preprocessVisitRow, h0],
      fun x h0 => by simp [preprocessVisitRow, h0],
      fun h0 => by simp [preprocessVisitRow, h0],
      fun x h0 => by simp [preprocessVisitRow, h0],
      fun h0 => by simp [preprocessVisitRow, fillCat, h0],
      fun h0 => by simp [preprocessVisitRow, fillCat, h0],
      fun h0 => by simp [preprocessVisitRow, fillCat, h0],
      rfl, rfl, rfl, rfl, rfl, rfl⟩

/-- Witness for the amended claim C7 at the all-null visits row. -/
theorem visits_imputation_listed_witness :
    ∃ w ∈ preprocess_visits [visitRowNull],
      (visitRowNull.total_spent = none → w.total_spent = 0) ∧
      (∀ x, visitRowNull.total_spent = some x → w.total_spent = x) ∧
      (visitRowNull.visit_duration = none → w.visit_duration = 0) ∧
      (∀ x, visitRowNull.visit_duration = some x → w.visit_duration = x) ∧
      (visitRowNull.drop_off = none → w.drop_off = 0) ∧
      (∀ x, visitRowNull.drop_off = some x → w.drop_off = x) ∧
      (visitRowNull.visit_type = none → w.visit_type = "Unknown") ∧
      (visitRowNull.appointment_day = none → w.appointment_day = "Unknown") ∧
      (visitRowNull.department = none → w.department = "Unknown") ∧
      w.num_visits = visitRowNull.num_visits ∧
      w.time_in_waiting = visitRowNull.time_in_waiting ∧
      w.satisfaction_score = visitRowNull.satisfaction_score ∧
      w.doctor_assigned = visitRowNull.doctor_assigned ∧
      w.prescription_given = visitRowNull.prescription_given ∧
      w.followup_recommended = visitRowNull.followup_recommended :=
  visits_imputation_listed [visitRowNull] visitRowNull (by decide)

/-- Claim C8: every row the demographics cleaner outputs has
chronic_conditions ≤ 5; a value above 5 is clamped to exactly 5, a
value at most 5 (with no lower bound) is left unchanged. -/
theorem chronic_conditions_capped (rows : List DemoRow) :
    (∀ r ∈ preprocess_demographics rows, r.chronic_conditions ≤ 5) ∧
    preprocess_demographics rows = rows.map (preprocessDemoRow (incomeMean rows)) ∧
    ∀ r : DemoRow,
      (5 < r.chronic_conditions →
        (preprocessDemoRow (incomeMean rows) r).chronic_conditions = 5) ∧
      (r.chronic_conditions ≤ 5 →
        (preprocessDemoRow (incomeMean rows) r).chronic_conditions =
          r.chronic_conditions) := by
  refine ⟨?_, rfl, ?_⟩
  · intro r hr
    unfold preprocess_demographics at hr
    rw [List.mem_map] at hr
    obtain ⟨d, _, hdr⟩ := hr
    subst hdr
    simp only [preprocessDemoRow, capChronic]
    split <;> omega
  · intro r
    constructor
    · intro h5
      simp only [preprocessDemoRow, capChronic]
      rw [if_pos h5]
    · intro h5
      simp only [preprocessDemoRow, capChronic]
      rw [if_neg (by omega)]

/-- Witness for claim C8 at the scenario demographics table (7 chronic
conditions, clamped to 5). -/
theorem chronic_conditions_capped_witness :
    (preprocessDemoRow (incomeMean [demoRow1]) demoRow1).chronic_conditions ≤ 5 ∧
    (preprocessDemoRow (incomeMean [demoRow1]) demoRow1).chronic_conditions = 5 :=
  ⟨(chronic_conditions_capped [demoRow1]).1
      (preprocessDemoRow (incomeMean [demoRow1]) demoRow1) (by decide),
    ((chronic_conditions_capped [demoRow1]).2.2 demoRow1).1 (by decide)⟩

/-- A one-hot vector has the requested dimension. -/
theorem oneHot_length : ∀ n i : Nat, (oneHot n i).length = n
  | 0, _ => rfl
  | n + 1, 0 => by simp [oneHot]
  | n + 1, i + 1 => by simp [oneHot, oneHot_length n i]

/-- The all-zeros vector has no nonzero entry. -/
theorem countNonzero_replicate (n : Nat) : countNonzero (List.replicate n (0 : ℚ)) = 0 := by
  unfold countNonzero
  rw [List.length_eq_zero]
  refine List.filter_eq_nil_iff.mpr (fun x hx => ?_)
  rw [List.eq_of_mem_replicate hx]
  simp

/-- An index inside the dimension one-hot encodes with exactly one
nonzero entry. -/
theorem countNonzero_oneHot : ∀ n i : Nat, i < n → countNonzero (oneHot n i) = 1
  | 0, _, h => absurd h (by omega)
  | n + 1, 0, _ => by
    simp only [oneHot, countNonzero, List.filter_cons]
    have h1 := countNonzero_replicate n
    unfold countNonzero at h1
    simp [h1]
  | n + 1, i + 1, h => by
    have h1 := countNonzero_oneHot n i (by omega)
    unfold countNonzero at h1 ⊢
    simp only [oneHot, List.filter_cons]
    simp only [ne_eq, decide_not] at h1 ⊢
    simpa using h1

/-- An index at or beyond the dimension — the dropped last category —
one-hot encodes to the all-zeros vector. -/
theorem oneHot_of_le : ∀ n i : Nat, n ≤ i → oneHot n i = List.replicate n (0 : ℚ)
  | 0, _, _ => rfl
  | n + 1, 0, h => absurd h (by omega)
  | n + 1, i + 1, h => by
    simp only [oneHot, List.replicate]
    rw [oneHot_of_le n i (by omega)]

/-- Decoding recovers any index inside the dimension. -/
theorem decodeOneHot_oneHot : ∀ n i : Nat, i < n → decodeOneHot (oneHot n i) = i
  | 0, _, h => absurd h (by omega)
  | n + 1, 0, _ => by simp [oneHot, decodeOneHot]
  | n + 1, i + 1, h => by
    simp [oneHot, decodeOneHot, decodeOneHot_oneHot n i (by omega)]

/-- A value seen at fit time indexes below the label count. -/
theorem stringIndex_lt_of_mem (vals : List String) (v : String) (hv : v ∈ vals) :
    stringIndex vals v < (seenLabels vals).length := by
  unfold stringIndex
  rw [if_pos (by rw [seenLabels, List.mem_dedup]; exact hv)]
  exact List.indexOf_lt_length.mpr (by rw [seenLabels, List.mem_dedup]; exact hv)

/-- Claim C4, counterexample: on the fitted gender column the category
cardinality including the reserved unseen bucket is 4, but the encoded
vector has dimension 3 — `OneHotEncoder` drops the last category, so
the unseen bucket consumes no slot — and the unseen value "Hindi"
encodes to the all-zeros vector, which has no nonzero entry. -/
theorem one_hot_unseen_slot_dropped :
    categorySize genderVals = 4 ∧
    (encodeValue genderVals "Male").length = 3 ∧
    ¬((encodeValue genderVals "Male").length = categorySize genderVals) ∧
    countNonzero (encodeValue genderVals "Hindi") = 0 ∧
    ¬(countNonzero (encodeValue genderVals "Hindi") = 1) := by decide

/-- Claim C4, amended: for every fitted column, the encoded vector of a
seen value has dimension equal to the number of seen categories (the
reserved unseen bucket is the dropped last category and consumes no
slot) and exactly one nonzero entry; an unseen value encodes to the
all-zeros vector of that dimension. -/
theorem one_hot_indicator (vals : List String) (v : String) (hv : v ∈ vals) :
    (encodeValue vals v).length = (seenLabels vals).length ∧
    countNonzero (encodeValue vals v) = 1 ∧
    ∀ w, w ∉ vals →
      encodeValue vals w = List.replicate (seenLabels vals).length (0 : ℚ) := by
  have hdim : oneHotDim vals = (seenLabels vals).length := by
    unfold oneHotDim categorySize
    omega
  refine ⟨?_, ?_, ?_⟩
  · rw [encodeValue, oneHot_length, hdim]
  · rw [encodeValue, countNonzero_oneHot]
    rw [hdim]
    exact stringIndex_lt_of_mem vals v hv
  · intro w hw
    rw [encodeValue, ← hdim]
    refine oneHot_of_le _ _ ?_
    unfold stringIndex
    rw [if_neg (by rw [seenLabels, List.mem_dedup]; exact hw), hdim, seenLabels]

/-- Witness for the amended claim C4 on the gender column. -/
theorem one_hot_indicator_witness :
    (encodeValue genderVals "Male").length = (seenLabels genderVals).length ∧
    countNonzero (encodeValue genderVals "Male") = 1 :=
  ⟨(one_hot_indicator genderVals "Male" (by decide)).1,
    (one_hot_indicator genderVals "Male" (by decide)).2.1⟩

/-- Claim C5: for every value seen at fit time, indexing it, expanding
the index to its one-hot vector and decoding the vector back to the
position of its nonzero entry recovers the index.  (This holds exactly
because `handleInvalid="keep"` places the unseen bucket last, so the
encoder's dropped category is never a seen value's.) -/
theorem one_hot_roundtrip (vals : List String) (v : String) (hv : v ∈ vals) :
    decodeOneHot (encodeValue vals v) = stringIndex vals v := by
  rw [encodeValue]
  refine decodeOneHot_oneHot _ _ ?_
  have hdim : oneHotDim vals = (seenLabels vals).length := by
    unfold oneHotDim categorySize
    omega
  rw [hdim]
  exact stringIndex_lt_of_mem vals v hv

/-- Witness for claim C5 on the gender column at each seen value. -/
theorem one_hot_roundtrip_witness :
    decodeOneHot (encodeValue genderVals "Other") = stringIndex genderVals "Other" :=
  one_hot_roundtrip genderVals "Other" (by decide)

/-- Sampling without replacement emits a sublist of its input: each
input row appears at most once in the sample. -/
theorem sampleRows_sublist : ∀ (bs : List Bool) (l : List BRow),
    List.Sublist (sampleRows bs l) l
  | bs, [] => by
    cases bs <;> exact List.Sublist.refl []
  | [], _ :: _ => List.nil_sublist _
  | b :: bs, r :: rs => by
    unfold sampleRows
    by_cases hb : b
    · rw [if_pos hb]
      exact (sampleRows_sublist bs rs).cons₂ r
    · rw [if_neg hb]
      exact (sampleRows_sublist bs rs).cons r

/-- Claim C9: however the balancer's Bernoulli draws fall and however
the final shuffle permutes its output, the balanced table contains
every minority-class (`drop_off = 1`) row of the input, and no
majority-class (`drop_off = 0`) row occurs more often than in the
input: the majority class is sampled without replacement. -/
theorem balancer_rows (mask : List Bool) (rows : List BRow) (out : List BRow)
    (hout : out.Perm (df_balanced mask rows)) :
    (∀ r ∈ rows, r.drop_off = 1 → r ∈ out) ∧
    (∀ r : BRow, r.drop_off = 0 → out.count r ≤ rows.count r) ∧
    (∀ r : BRow, r.drop_off = 1 →
      out.count r = (df_minor rows).count r) := by
  have hcount : ∀ r : BRow, out.count r =
      (sampleRows mask (df_major rows)).count r + (df_minor rows).count r := by
    intro r
    rw [hout.count_eq, df_balanced, List.count_append]
  refine ⟨?_, ?_, ?_⟩
  · intro r hr h1
    rw [hout.mem_iff, df_balanced, List.mem_append]
    right
    rw [df_minor, List.mem_filter]
    exact ⟨hr, by simp [h1]⟩
  · intro r h0
    rw [hcount r]
    have hminor : (df_minor rows).count r = 0 := by
      rw [List.count_eq_zero]
      intro hmem
      rw [df_minor, List.mem_filter] at hmem
      have := hmem.2
      simp only [decide_eq_true_eq] at this
      omega
    have hmaj : (sampleRows mask (df_major rows)).count r ≤ (df_major rows).count r :=
      (sampleRows_sublist mask (df_major rows)).count_le r
    have hfil : (df_major rows).count r ≤ rows.count r :=
      (List.filter_sublist rows).count_le r
    omega
  · intro r h1
    rw [hcount r]
    have hmaj : (sampleRows mask (df_major rows)).count r = 0 := by
      rw [List.count_eq_zero]
      intro hmem
      have := (sampleRows_sublist mask (df_major rows)).mem hmem
      rw [df_major, List.mem_filter] at this
      have h2 := this.2
      simp only [decide_eq_true_eq] at h2
      omega
    omega

/-- Witness for claim C9 with one majority and one minority row, the
majority row kept by the draw, and the unshuffled output. -/
theorem balancer_rows_witness :
    bRowMin ∈ df_balanced [true] [bRowMaj, bRowMin] ∧
    (df_balanced [true] [bRowMaj, bRowMin]).count bRowMaj ≤
      ([bRowMaj, bRowMin] : List BRow).count bRowMaj :=
  ⟨(balancer_rows [true] [bRowMaj, bRowMin] (df_balanced [true] [bRowMaj, bRowMin])
      (List.Perm.refl _)).1 bRowMin (by decide) (by decide),
    (balancer_rows [true] [bRowMaj, bRowMin] (df_balanced [true] [bRowMaj, bRowMin])
      (List.Perm.refl _)).2.1 bRowMaj (by decide)⟩

/-- The split helper partitions its input: the two halves concatenate,
up to order, to the input. -/
theorem randomSplitGo_perm (keep : Nat → Bool) :
    ∀ (i : Nat) (l : List BRow),
      ((randomSplitGo keep i l).1 ++ (randomSplitGo keep i l).2).Perm l
  | _, [] => by
    unfold randomSplitGo
    exact List.Perm.refl []
  | i, r :: rs => by
    unfold randomSplitGo
    by_cases hk : keep i
    · rw [if_pos hk]
      exact (randomSplitGo_perm keep (i + 1) rs).cons r
    · rw [if_neg hk]
      exact List.perm_middle.trans ((randomSplitGo_perm keep (i + 1) rs).cons r)

/-- Claim C10: for every input table and every assignment of seeded
draws, the 70/30 split partitions the input rows — the train and test
halves together are a permutation of the input, and each row value
occurs in the two halves exactly as often as in the input (so every
input row lands in exactly one half and the halves are disjoint as
multisets). -/
theorem random_split_partition (u : Nat → ℚ) (rows : List BRow) :
    ((randomSplit u rows).1 ++ (randomSplit u rows).2).Perm rows ∧
    ∀ r : BRow,
      (randomSplit u rows).1.count r + (randomSplit u rows).2.count r =
        rows.count r := by
  have hperm := randomSplitGo_perm (fun i => u i < 7 / 10) 0 rows
  refine ⟨hperm, fun r => ?_⟩
  have := hperm.count_eq r
  rw [List.count_append] at this
  exact this

/-- Witness for claim C10 on a two-row table with draws sending the
first row to train and the second to test. -/
theorem random_split_partition_witness :
    ((randomSplit (fun i => if i = 0 then 0 else 1) [bRowMaj, bRowMin]).1 ++
      (randomSplit (fun i => if i = 0 then 0 else 1) [bRowMaj, bRowMin]).2).Perm
      [bRowMaj, bRowMin] ∧
    (randomSplit (fun i => if i = 0 then 0 else 1) [bRowMaj, bRowMin]).1.count bRowMaj +
      (randomSplit (fun i => if i = 0 then 0 else 1) [bRowMaj, bRowMin]).2.count bRowMaj =
      ([bRowMaj, bRowMin] : List BRow).count bRowMaj :=
  ⟨(random_split_partition (fun i => if i = 0 then 0 else 1) [bRowMaj, bRowMin]).1,
    (random_split_partition (fun i => if i = 0 then 0 else 1) [bRowMaj, bRowMin]).2 bRowMaj⟩
